import Mathlib

/-!
Verification development for the oasis key-manager worker
(package keymanager, worker.go).  The Go source is embedded shallowly:
Go maps become association lists over Nat keys, external collaborators
(consensus, registry, enclave host, libp2p) become explicit environment
records whose fields carry the results of the corresponding calls, and
each worker routine becomes a pure Lean function mirroring the source
control flow.
-/

/-- Libp2p peer identifier (abstract). -/
abbrev PeerID := Nat

/-- 256-bit runtime namespace identifier (abstract). -/
abbrev RuntimeID := Nat

/-- Ed25519 public key (abstract). -/
abbrev PubKey := Nat

/-- Beacon epoch time (uint64 in the source). -/
abbrev EpochTime := Nat

/-- Raw byte string. -/
abbrev Bytes := List Nat

/-- Source constant rpcCallTimeout aside, the three numeric limits of worker.go. -/
def loadEphemeralSecretMaxRetries : Nat := 5

/-- Source constant generateEphemeralSecretMaxRetries = 5. -/
def generateEphemeralSecretMaxRetries : Nat := 5

/-- Source constant ephemeralSecretCacheSize = 20. -/
def ephemeralSecretCacheSize : Nat := 20

/-- Go math.MaxInt64, the disarmed sentinel for genSecretHeight. -/
def maxInt64 : Int := 9223372036854775807

/-- Enclave RPC method name api.RPCMethodGetPublicKey. -/
def rpcMethodGetPublicKey : String := "get_public_key"

/-- Enclave RPC method name api.RPCMethodGetPublicEphemeralKey. -/
def rpcMethodGetPublicEphemeralKey : String := "get_public_ephemeral_key"

/-- node.TEEHardwareInvalid (value 0): no TEE hardware. -/
def TEEHardwareInvalid : Nat := 0

/-- node.TEEHardwareIntelSGX (value 1). -/
def TEEHardwareIntelSGX : Nat := 1

/-- The fixed well-known insecure RAK api.InsecureRAK, an abstract
distinguished public key. -/
def InsecureRAK : PubKey := 0

/-- registry.KindCompute runtime kind. -/
def KindCompute : Nat := 1

/-- Enclave RPC call kind (enclaverpc.Kind). -/
inductive Kind
  | noiseSession
  | insecureQuery
  | localQuery
deriving DecidableEq, Repr

/-- The part of an enclaverpc.Frame that CallEnclave peeks at. -/
structure Frame where
  untrustedPlaintext : String
deriving DecidableEq, Repr

/-- Association-list lookup, modelling Go map access m[k]. -/
def mapLookup {V : Type} (m : List (Nat × V)) (k : Nat) : Option V :=
  match m with
  | [] => none
  | (k0, v0) :: rest => if k0 = k then some v0 else mapLookup rest k

/-- Association-list insert/replace, modelling Go map assignment m[k] = v. -/
def mapInsert {V : Type} (m : List (Nat × V)) (k : Nat) (v : V) : List (Nat × V) :=
  match m with
  | [] => [(k, v)]
  | (k0, v0) :: rest => if k0 = k then (k, v) :: rest else (k0, v0) :: mapInsert rest k v

/-- Association-list delete, modelling Go delete(m, k). -/
def mapDelete {V : Type} (m : List (Nat × V)) (k : Nat) : List (Nat × V) :=
  match m with
  | [] => []
  | (k0, v0) :: rest => if k0 = k then mapDelete rest k else (k0, v0) :: mapDelete rest k

/-- A peer's access-list entry: the set of runtime ids the peer may query
(Go map value of accessList, keys of the inner map). -/
abbrev AccessList := List (PeerID × List RuntimeID)

/-- The inverse map accessListByRuntime: runtime id to ordered peer list. -/
abbrev AccessListByRuntime := List (RuntimeID × List PeerID)

/-- The fields of Worker consulted by the CallEnclave access-control gate. -/
structure ACState where
  privatePeers : List PeerID
  accessList : AccessList
deriving Repr

/-- Outcome of the access-control portion of Worker.CallEnclave: either one
of the early errors, or the request proceeds toward the enclave dispatch. -/
inductive CallOutcome
  | notAuthorized
  | malformedRequest
  | unsupportedKind
  | dispatched
deriving DecidableEq, Repr

/-- Worker.CallEnclave up to the point the request is dispatched to the
hosted runtime.  peerId is the result of rpc.PeerIDFromContext; decode is
the external cbor.Unmarshal of the frame. -/
def callEnclave (w : ACState) (peerId : Option PeerID)
    (decode : Bytes → Option Frame) (data : Bytes) (kind : Kind) : CallOutcome :=
  match kind with
  | Kind.noiseSession =>
    match peerId with
    | none => CallOutcome.notAuthorized
    | some pid =>
      match decode data with
      | none => CallOutcome.malformedRequest
      | some frame =>
        if frame.untrustedPlaintext = "" then
          CallOutcome.dispatched
        else if frame.untrustedPlaintext = rpcMethodGetPublicKey ∨
            frame.untrustedPlaintext = rpcMethodGetPublicEphemeralKey then
          CallOutcome.dispatched
        else if pid ∈ w.privatePeers then
          CallOutcome.dispatched
        else if (mapLookup w.accessList pid).isSome then
          CallOutcome.dispatched
        else
          CallOutcome.notAuthorized
  | Kind.insecureQuery => CallOutcome.dispatched
  | Kind.localQuery => CallOutcome.unsupportedKind

/-- Per-enclave policy: the key set of EnclavePolicySGX.MayQuery. -/
structure EnclavePolicySGX where
  mayQuery : List RuntimeID
deriving DecidableEq, Repr

/-- PolicySGX document body: its list of enclave policies. -/
structure PolicySGX where
  enclaves : List EnclavePolicySGX
deriving DecidableEq, Repr

/-- api.SignedPolicySGX: policy document plus signatures (abstract). -/
structure SignedPolicySGX where
  policy : PolicySGX
  sigs : Nat
deriving DecidableEq, Repr

/-- api.Status, the consensus key-manager status record (fields the worker reads). -/
structure Status where
  id : RuntimeID
  isInitialized : Bool
  isSecure : Bool
  checksum : Bytes
  nodes : List PubKey
  policy : Option SignedPolicySGX
deriving DecidableEq, Repr

/-- node.CapabilityTEE: hardware kind, RAK and optional REK. -/
structure CapabilityTEE where
  hardware : Nat
  rak : PubKey
  rek : Option Nat
deriving DecidableEq, Repr

/-- Source struct runtimeStatus: local state of the hosted enclave. -/
structure RuntimeStatusRec where
  version : Nat
  capabilityTEE : Option CapabilityTEE
deriving DecidableEq, Repr

/-- Signed response body of the enclave init call (api.SignedInitResponse,
with the InitResponse fields inlined and the raw signature abstract). -/
structure SignedInitResponse where
  isSecure : Bool
  checksum : Bytes
  policyChecksum : Bytes
  sig : Nat
deriving DecidableEq, Repr

/-- api.InitRequest as built by updateStatus. -/
structure InitRequest where
  checksum : Bytes
  policy : Option Bytes
  mayGenerate : Bool
deriving DecidableEq, Repr

/-- The cached fields written at the end of Worker.updateStatus. -/
structure KMCache where
  enclaveStatus : Option SignedInitResponse
  policy : Option SignedPolicySGX
  policyChecksum : Option Bytes
deriving DecidableEq, Repr

/-- Environment for updateStatus: the enclave init call (localCallEnclave
with method init) and the external signature check
SignedInitResponse.Verify. -/
structure UpdateEnv where
  initCall : InitRequest → Except String SignedInitResponse
  verify : SignedInitResponse → PubKey → Bool
  cborPolicy : SignedPolicySGX → Bytes

/-- Errors updateStatus can return. -/
inductive UpdateErr
  | initFailed (e : String)
  | unknownTEE (hw : Nat)
  | badSignature
deriving DecidableEq, Repr

/-- Worker.updateStatus: build the init request, call the enclave, verify
the signature when a TEE capability is present, then cache the enclave
status, policy and policy checksum.  On error the cache is left unchanged
(the caller keeps the old KMCache). -/
def updateStatus (env : UpdateEnv) (status : Status) (rtStatus : RuntimeStatusRec)
    (mayGenerate : Bool) : Except UpdateErr KMCache :=
  let policyBytes : Option Bytes :=
    match status.policy with
    | some p => some (env.cborPolicy p)
    | none => none
  let req : InitRequest :=
    { checksum := status.checksum, policy := policyBytes, mayGenerate := mayGenerate }
  match env.initCall req with
  | Except.error e => Except.error (UpdateErr.initFailed e)
  | Except.ok resp =>
    let verified : Except UpdateErr Unit :=
      match rtStatus.capabilityTEE with
      | none => Except.ok ()
      | some tee =>
        if tee.hardware = TEEHardwareInvalid then
          (if env.verify resp InsecureRAK then Except.ok () else Except.error UpdateErr.badSignature)
        else if tee.hardware = TEEHardwareIntelSGX then
          (if env.verify resp tee.rak then Except.ok () else Except.error UpdateErr.badSignature)
        else
          Except.error (UpdateErr.unknownTEE tee.hardware)
    match verified with
    | Except.error e => Except.error e
    | Except.ok () =>
      Except.ok { enclaveStatus := some resp, policy := status.policy,
                  policyChecksum := some resp.policyChecksum }

/-- The fields of node.Node consulted by setAccessList: node id and the
P2P public key node.P2P.ID. -/
structure NodeDesc where
  id : PubKey
  p2pID : PubKey
deriving DecidableEq, Repr

/-- The two mirrored access maps owned by the worker. -/
structure ALState where
  accessList : AccessList
  accessListByRuntime : AccessListByRuntime
deriving DecidableEq, Repr

/-- The empty initial access state of a fresh worker. -/
def initALState : ALState :=
  { accessList := [], accessListByRuntime := [] }

/-- Whether peer p currently has an entry for runtime r in the access list
(membership of r in the inner map keyed by p). -/
def hasAccess (al : AccessList) (p : PeerID) (r : RuntimeID) : Bool :=
  match mapLookup al p with
  | none => false
  | some entry => decide (r ∈ entry)

/-- One iteration of the clearing loop of setAccessList: drop runtimeID
from the entry of peer p, removing the whole entry when it becomes empty
(Go delete on the inner and outer maps). -/
def clearPeer (rid : RuntimeID) (al : AccessList) (p : PeerID) : AccessList :=
  match mapLookup al p with
  | none => mapDelete al p
  | some entry =>
    if entry.filter (fun x => decide (x ≠ rid)) = [] then mapDelete al p
    else mapInsert al p (entry.filter (fun x => decide (x ≠ rid)))

/-- One iteration of the update loop of setAccessList: ensure peer p's
entry exists and holds runtimeID (Go map insert into the inner set). -/
def addPeer (rid : RuntimeID) (al : AccessList) (p : PeerID) : AccessList :=
  mapInsert al p
    (if rid ∈ (mapLookup al p).getD [] then (mapLookup al p).getD []
     else (mapLookup al p).getD [] ++ [rid])

/-- The peer ids successfully derived from the nodes' P2P public keys via
p2p.PublicKeyToPeerID (toPeer), in node order, skipping failures. -/
def derivedPeers (toPeer : PubKey → Option PeerID) (nodes : List NodeDesc) : List PeerID :=
  nodes.filterMap (fun n => toPeer n.p2pID)

/-- Worker.setAccessList: clear all previous (peer, runtimeID) pairs using
accessListByRuntime, then translate each node's P2P key to a peer id
(skipping failures), add (peer, runtimeID) pairs, and store the rebuilt
peer list under runtimeID. -/
def setAccessList (toPeer : PubKey → Option PeerID) (s : ALState)
    (runtimeID : RuntimeID) (nodes : List NodeDesc) : ALState :=
  let oldPeers := (mapLookup s.accessListByRuntime runtimeID).getD []
  let cleared := oldPeers.foldl (clearPeer runtimeID) s.accessList
  let added := nodes.foldl (fun acc n =>
      match toPeer n.p2pID with
      | none => acc
      | some p => (addPeer runtimeID acc.1 p, acc.2 ++ [p])) (cleared, ([] : List PeerID))
  { accessList := added.1,
    accessListByRuntime := mapInsert s.accessListByRuntime runtimeID added.2 }

theorem mapLookup_insert {V : Type} (m : List (Nat × V)) (k q : Nat) (v : V) :
    mapLookup (mapInsert m k v) q = if k = q then some v else mapLookup m q := by
  induction m with
  | nil => by_cases h : k = q <;> simp [mapInsert, mapLookup, h]
  | cons hd tl ih =>
    obtain ⟨k0, v0⟩ := hd
    by_cases h0 : k0 = k
    · subst h0
      by_cases h : k0 = q <;> simp [mapInsert, mapLookup, h]
    · by_cases h : k0 = q
      · subst h
        simp only [mapInsert, if_neg h0, mapLookup, if_pos rfl]
        have : ¬ k = k0 := fun hh => h0 hh.symm
        simp [this]
      · simp [mapInsert, if_neg h0, mapLookup, if_neg h, ih]

theorem mapLookup_delete {V : Type} (m : List (Nat × V)) (k q : Nat) :
    mapLookup (mapDelete m k) q = if k = q then none else mapLookup m q := by
  induction m with
  | nil => by_cases h : k = q <;> simp [mapDelete, mapLookup, h]
  | cons hd tl ih =>
    obtain ⟨k0, v0⟩ := hd
    by_cases h0 : k0 = k
    · subst h0
      by_cases h : k0 = q
      · subst h
        simp [mapDelete, ih]
      · simp [mapDelete, mapLookup, h, ih]
    · by_cases h : k0 = q
      · subst h
        simp only [mapDelete, if_neg h0, mapLookup, if_pos rfl]
        have : ¬ k = k0 := fun hh => h0 hh.symm
        simp [this]
      · simp [mapDelete, if_neg h0, mapLookup, if_neg h, ih]


/-- The entry of a peer after runtimeID has been cleared from it, at the
level of lookups: none when the entry disappears. -/
def clearedEntry (rid : RuntimeID) (e : List RuntimeID) : Option (List RuntimeID) :=
  if e.filter (fun x => decide (x ≠ rid)) = [] then none
  else some (e.filter (fun x => decide (x ≠ rid)))

/-- Lookup value after the whole clearing loop, for peers it visits. -/
def clearLookup (rid : RuntimeID) (al : AccessList) (q : PeerID) : Option (List RuntimeID) :=
  (mapLookup al q).bind (clearedEntry rid)

theorem lookup_clearPeer_self (rid : RuntimeID) (al : AccessList) (p : PeerID) :
    mapLookup (clearPeer rid al p) p = clearLookup rid al p := by
  unfold clearPeer clearLookup clearedEntry
  cases h : mapLookup al p with
  | none => simp [mapLookup_delete]
  | some entry =>
    dsimp only [Option.bind]
    by_cases h2 : entry.filter (fun x => decide (x ≠ rid)) = []
    · rw [if_pos h2, if_pos h2, mapLookup_delete, if_pos rfl]
    · rw [if_neg h2, if_neg h2, mapLookup_insert, if_pos rfl]

theorem lookup_clearPeer_ne (rid : RuntimeID) (al : AccessList) (p q : PeerID)
    (h : q ≠ p) : mapLookup (clearPeer rid al p) q = mapLookup al q := by
  unfold clearPeer
  have hpq : ¬ p = q := fun hh => h hh.symm
  cases mapLookup al p with
  | none => rw [mapLookup_delete, if_neg hpq]
  | some entry =>
    dsimp only
    by_cases h2 : entry.filter (fun x => decide (x ≠ rid)) = []
    · rw [if_pos h2, mapLookup_delete, if_neg hpq]
    · rw [if_neg h2, mapLookup_insert, if_neg hpq]

theorem clearedEntry_bind_idem (rid : RuntimeID) (o : Option (List RuntimeID)) :
    (o.bind (clearedEntry rid)).bind (clearedEntry rid) = o.bind (clearedEntry rid) := by
  cases o with
  | none => rfl
  | some e =>
    unfold clearedEntry
    dsimp only [Option.bind]
    by_cases h2 : e.filter (fun x => decide (x ≠ rid)) = []
    · rw [if_pos h2]
    · rw [if_neg h2]
      dsimp only [Option.bind]
      rw [List.filter_filter]
      have hand : ∀ x : Nat, (decide (x ≠ rid) && decide (x ≠ rid)) = decide (x ≠ rid) := by
        intro x; cases decide (x ≠ rid) <;> rfl
      simp only [hand]
      rw [if_neg h2]

theorem lookup_foldl_clearPeer (rid : RuntimeID) (ps : List PeerID) :
    ∀ (al : AccessList) (q : PeerID),
      mapLookup (ps.foldl (clearPeer rid) al) q =
        if q ∈ ps then clearLookup rid al q else mapLookup al q := by
  induction ps with
  | nil => intro al q; simp
  | cons p tl ih =>
    intro al q
    rw [List.foldl_cons, ih (clearPeer rid al p) q]
    by_cases hq : q = p
    · subst hq
      by_cases hmem : q ∈ tl
      · rw [if_pos hmem, if_pos (List.mem_cons_self q tl)]
        unfold clearLookup
        rw [lookup_clearPeer_self]
        unfold clearLookup
        exact clearedEntry_bind_idem rid (mapLookup al q)
      · rw [if_neg hmem, if_pos (List.mem_cons_self q tl)]
        exact lookup_clearPeer_self rid al q
    · by_cases hmem : q ∈ tl
      · rw [if_pos hmem, if_pos (List.mem_cons_of_mem p hmem)]
        unfold clearLookup
        rw [lookup_clearPeer_ne rid al p q hq]
      · have hncons : q ∉ p :: tl := by
          intro hc
          rcases List.mem_cons.mp hc with h1 | h1
          · exact hq h1
          · exact hmem h1
        rw [if_neg hmem, if_neg hncons]
        exact lookup_clearPeer_ne rid al p q hq

/-- Lookup value after the peer-addition loop, for peers it visits. -/
def addLookup (rid : RuntimeID) (al : AccessList) (q : PeerID) : Option (List RuntimeID) :=
  some (if rid ∈ (mapLookup al q).getD [] then (mapLookup al q).getD []
        else (mapLookup al q).getD [] ++ [rid])

theorem lookup_addPeer_self (rid : RuntimeID) (al : AccessList) (p : PeerID) :
    mapLookup (addPeer rid al p) p = addLookup rid al p := by
  unfold addPeer addLookup
  rw [mapLookup_insert, if_pos rfl]

theorem lookup_addPeer_ne (rid : RuntimeID) (al : AccessList) (p q : PeerID)
    (h : q ≠ p) : mapLookup (addPeer rid al p) q = mapLookup al q := by
  unfold addPeer
  have hpq : ¬ p = q := fun hh => h hh.symm
  rw [mapLookup_insert, if_neg hpq]

theorem addLookup_addPeer_idem (rid : RuntimeID) (al : AccessList) (p : PeerID) :
    addLookup rid (addPeer rid al p) p = addLookup rid al p := by
  unfold addLookup
  rw [lookup_addPeer_self]
  unfold addLookup
  rw [Option.getD_some]
  by_cases h : rid ∈ (mapLookup al p).getD []
  · simp [h]
  · have hmem : rid ∈ (mapLookup al p).getD [] ++ [rid] :=
      List.mem_append_right _ (List.mem_singleton.mpr rfl)
    simp [h, hmem]

theorem lookup_foldl_addPeer (rid : RuntimeID) (ps : List PeerID) :
    ∀ (al : AccessList) (q : PeerID),
      mapLookup (ps.foldl (addPeer rid) al) q =
        if q ∈ ps then addLookup rid al q else mapLookup al q := by
  induction ps with
  | nil => intro al q; simp
  | cons p tl ih =>
    intro al q
    rw [List.foldl_cons, ih (addPeer rid al p) q]
    by_cases hq : q = p
    · subst hq
      by_cases hmem : q ∈ tl
      · rw [if_pos hmem, if_pos (List.mem_cons_self q tl)]
        exact addLookup_addPeer_idem rid al q
      · rw [if_neg hmem, if_pos (List.mem_cons_self q tl)]
        exact lookup_addPeer_self rid al q
    · by_cases hmem : q ∈ tl
      · rw [if_pos hmem, if_pos (List.mem_cons_of_mem p hmem)]
        unfold addLookup
        rw [lookup_addPeer_ne rid al p q hq]
      · have hncons : q ∉ p :: tl := by
          intro hc
          rcases List.mem_cons.mp hc with h1 | h1
          · exact hq h1
          · exact hmem h1
        rw [if_neg hmem, if_neg hncons]
        exact lookup_addPeer_ne rid al p q hq

/-- The access list after the clearing loop of setAccessList(runtimeID). -/
def clearedAL (s : ALState) (rid : RuntimeID) : AccessList :=
  ((mapLookup s.accessListByRuntime rid).getD []).foldl (clearPeer rid) s.accessList

theorem addFold_eq (rid : RuntimeID) (toPeer : PubKey → Option PeerID) :
    ∀ (nodes : List NodeDesc) (al : AccessList) (acc : List PeerID),
      nodes.foldl (fun acc2 n =>
          match toPeer n.p2pID with
          | none => acc2
          | some p => (addPeer rid acc2.1 p, acc2.2 ++ [p])) (al, acc) =
        ((derivedPeers toPeer nodes).foldl (addPeer rid) al, acc ++ derivedPeers toPeer nodes) := by
  intro nodes
  induction nodes with
  | nil => intro al acc; simp [derivedPeers]
  | cons n tl ih =>
    intro al acc
    rw [List.foldl_cons]
    cases h : toPeer n.p2pID with
    | none =>
      dsimp only
      rw [ih al acc]
      simp [derivedPeers, List.filterMap_cons, h]
    | some p =>
      dsimp only
      rw [ih (addPeer rid al p) (acc ++ [p])]
      simp [derivedPeers, List.filterMap_cons, h]

theorem setAccessList_eq (toPeer : PubKey → Option PeerID) (s : ALState)
    (rid : RuntimeID) (nodes : List NodeDesc) :
    setAccessList toPeer s rid nodes =
      { accessList := (derivedPeers toPeer nodes).foldl (addPeer rid) (clearedAL s rid),
        accessListByRuntime :=
          mapInsert s.accessListByRuntime rid (derivedPeers toPeer nodes) } := by
  dsimp only [setAccessList, clearedAL]
  rw [addFold_eq rid toPeer nodes]
  dsimp only
  rw [List.nil_append]

theorem hasAccess_true_iff (al : AccessList) (p : PeerID) (r : RuntimeID) :
    hasAccess al p r = true ↔ ∃ e, mapLookup al p = some e ∧ r ∈ e := by
  unfold hasAccess
  cases mapLookup al p <;> simp

theorem hasAccess_of_clearLookup (rid : RuntimeID) (al al2 : AccessList) (q : PeerID)
    (h : mapLookup al2 q = clearLookup rid al q) (r : RuntimeID) :
    hasAccess al2 q r = true ↔ (hasAccess al q r = true ∧ r ≠ rid) := by
  rw [hasAccess_true_iff, hasAccess_true_iff]
  unfold clearLookup clearedEntry at h
  cases hx : mapLookup al q with
  | none =>
    rw [hx] at h
    dsimp only [Option.bind] at h
    simp [h]
  | some e =>
    rw [hx] at h
    dsimp only [Option.bind] at h
    by_cases h2 : e.filter (fun x => decide (x ≠ rid)) = []
    · rw [if_pos h2] at h
      simp only [h, hx]
      constructor
      · rintro ⟨e2, he2, _⟩; cases he2
      · rintro ⟨⟨e2, he2, hr⟩, hne⟩
        cases he2
        have : r ∈ e.filter (fun x => decide (x ≠ rid)) :=
          List.mem_filter.mpr ⟨hr, by simp [hne]⟩
        rw [h2] at this
        cases this
    · rw [if_neg h2] at h
      simp only [h, hx]
      constructor
      · rintro ⟨e2, he2, hr⟩
        cases he2
        have := List.mem_filter.mp hr
        refine ⟨⟨e, rfl, this.1⟩, ?_⟩
        have := this.2
        simpa using this
      · rintro ⟨⟨e2, he2, hr⟩, hne⟩
        cases he2
        exact ⟨_, rfl, List.mem_filter.mpr ⟨hr, by simp [hne]⟩⟩

theorem hasAccess_of_addLookup (rid : RuntimeID) (al al2 : AccessList) (q : PeerID)
    (h : mapLookup al2 q = addLookup rid al q) (r : RuntimeID) :
    hasAccess al2 q r = true ↔ (hasAccess al q r = true ∨ r = rid) := by
  rw [hasAccess_true_iff, hasAccess_true_iff]
  unfold addLookup at h
  constructor
  · rintro ⟨e2, he2, hr⟩
    rw [h] at he2
    injection he2 with he2
    subst he2
    by_cases hin : rid ∈ (mapLookup al q).getD []
    · rw [if_pos hin] at hr
      cases hx : mapLookup al q with
      | none => rw [hx] at hr; simp at hr
      | some e =>
        rw [hx] at hr
        exact Or.inl ⟨e, rfl, by simpa using hr⟩
    · rw [if_neg hin] at hr
      rcases List.mem_append.mp hr with hr1 | hr1
      · cases hx : mapLookup al q with
        | none => rw [hx] at hr1; simp at hr1
        | some e =>
          rw [hx] at hr1
          exact Or.inl ⟨e, rfl, by simpa using hr1⟩
      · exact Or.inr (List.mem_singleton.mp hr1)
  · intro hcase
    refine ⟨_, h, ?_⟩
    by_cases hin : rid ∈ (mapLookup al q).getD []
    · rw [if_pos hin]
      rcases hcase with ⟨e, he, hr⟩ | hre
      · rw [he]; simpa using hr
      · subst hre; exact hin
    · rw [if_neg hin]
      rcases hcase with ⟨e, he, hr⟩ | hre
      · exact List.mem_append.mpr (Or.inl (by rw [he]; simpa using hr))
      · subst hre
        exact List.mem_append.mpr (Or.inr (List.mem_singleton.mpr rfl))

theorem bool_eq_of_iff {a b : Bool} (h : a = true ↔ b = true) : a = b := by
  cases a <;> cases b <;> simp_all

theorem hasAccess_congr (al1 al2 : AccessList) (p : PeerID)
    (h : mapLookup al1 p = mapLookup al2 p) (r : RuntimeID) :
    hasAccess al1 p r = hasAccess al2 p r := by
  unfold hasAccess
  rw [h]

theorem setAccessList_albr (toPeer : PubKey → Option PeerID) (s : ALState)
    (rid : RuntimeID) (nodes : List NodeDesc) (r2 : RuntimeID) :
    mapLookup (setAccessList toPeer s rid nodes).accessListByRuntime r2 =
      if rid = r2 then some (derivedPeers toPeer nodes)
      else mapLookup s.accessListByRuntime r2 := by
  rw [setAccessList_eq]
  exact mapLookup_insert _ rid r2 _

theorem setAccessList_al_lookup (toPeer : PubKey → Option PeerID) (s : ALState)
    (rid : RuntimeID) (nodes : List NodeDesc) (q : PeerID) :
    mapLookup (setAccessList toPeer s rid nodes).accessList q =
      if q ∈ derivedPeers toPeer nodes then addLookup rid (clearedAL s rid) q
      else mapLookup (clearedAL s rid) q := by
  rw [setAccessList_eq]
  exact lookup_foldl_addPeer rid _ _ q

theorem clearedAL_lookup (s : ALState) (rid : RuntimeID) (q : PeerID) :
    mapLookup (clearedAL s rid) q =
      if q ∈ (mapLookup s.accessListByRuntime rid).getD []
      then clearLookup rid s.accessList q else mapLookup s.accessList q :=
  lookup_foldl_clearPeer rid _ _ q

theorem hasAccess_setAccessList_other (toPeer : PubKey → Option PeerID) (s : ALState)
    (rid : RuntimeID) (nodes : List NodeDesc) (p : PeerID) (r2 : RuntimeID)
    (hr2 : r2 ≠ rid) :
    hasAccess (setAccessList toPeer s rid nodes).accessList p r2 =
      hasAccess s.accessList p r2 := by
  have hcl : hasAccess (clearedAL s rid) p r2 = hasAccess s.accessList p r2 := by
    by_cases hold : p ∈ (mapLookup s.accessListByRuntime rid).getD []
    · apply bool_eq_of_iff
      have hc := hasAccess_of_clearLookup rid s.accessList (clearedAL s rid) p
        (by rw [clearedAL_lookup, if_pos hold]) r2
      rw [hc]
      constructor
      · exact fun hh => hh.1
      · exact fun hh => ⟨hh, hr2⟩
    · exact hasAccess_congr _ _ p (by rw [clearedAL_lookup, if_neg hold]) r2
  by_cases hd : p ∈ derivedPeers toPeer nodes
  · apply bool_eq_of_iff
    have ha := hasAccess_of_addLookup rid (clearedAL s rid)
      (setAccessList toPeer s rid nodes).accessList p
      (by rw [setAccessList_al_lookup, if_pos hd]) r2
    rw [ha, hcl]
    constructor
    · rintro (hh | hh)
      · exact hh
      · exact absurd hh hr2
    · exact Or.inl
  · rw [← hcl]
    exact hasAccess_congr _ _ p (by rw [setAccessList_al_lookup, if_neg hd]) r2

theorem hasAccess_setAccessList_rid (toPeer : PubKey → Option PeerID) (s : ALState)
    (rid : RuntimeID) (nodes : List NodeDesc) (p : PeerID) :
    hasAccess (setAccessList toPeer s rid nodes).accessList p rid = true ↔
      (p ∈ derivedPeers toPeer nodes ∨
        (p ∉ (mapLookup s.accessListByRuntime rid).getD [] ∧
          hasAccess s.accessList p rid = true)) := by
  by_cases hd : p ∈ derivedPeers toPeer nodes
  · have ha := hasAccess_of_addLookup rid (clearedAL s rid)
      (setAccessList toPeer s rid nodes).accessList p
      (by rw [setAccessList_al_lookup, if_pos hd]) rid
    rw [ha]
    simp [hd]
  · by_cases hold : p ∈ (mapLookup s.accessListByRuntime rid).getD []
    · have hc := hasAccess_of_clearLookup rid s.accessList
        (setAccessList toPeer s rid nodes).accessList p
        (by rw [setAccessList_al_lookup, if_neg hd, clearedAL_lookup, if_pos hold]) rid
      rw [hc]
      simp [hd, hold]
    · have heq : hasAccess (setAccessList toPeer s rid nodes).accessList p rid =
          hasAccess s.accessList p rid :=
        hasAccess_congr _ _ p
          (by rw [setAccessList_al_lookup, if_neg hd, clearedAL_lookup, if_neg hold]) rid
      rw [heq]
      simp [hd, hold]

/-- Strong mirror invariant between the two access maps: (peer, runtime)
membership agrees pointwise. -/
def InvMirror (s : ALState) : Prop :=
  ∀ p r, hasAccess s.accessList p r = true ↔
    p ∈ (mapLookup s.accessListByRuntime r).getD []

/-- Access-list entries are never empty (Go deletes a peer's key once its
inner runtime map becomes empty). -/
def NoEmptyEntry (s : ALState) : Prop :=
  ∀ p e, mapLookup s.accessList p = some e → e ≠ []

/-- The spec's invariant 1: a peer has an accessList entry iff it appears
in accessListByRuntime for some runtime. -/
def accessListMirror (s : ALState) : Prop :=
  ∀ p, (mapLookup s.accessList p).isSome = true ↔
    ∃ r, p ∈ (mapLookup s.accessListByRuntime r).getD []

theorem mirror_implies_inv (s : ALState) (hm : InvMirror s) (hne : NoEmptyEntry s) :
    accessListMirror s := by
  intro p
  constructor
  · intro hsome
    cases hx : mapLookup s.accessList p with
    | none => rw [hx] at hsome; cases hsome
    | some e =>
      have hnil := hne p e hx
      cases e with
      | nil => exact absurd rfl hnil
      | cons r tl =>
        refine ⟨r, ?_⟩
        rw [← hm p r]
        rw [hasAccess_true_iff]
        exact ⟨r :: tl, hx, List.mem_cons_self r tl⟩
  · rintro ⟨r, hr⟩
    have := (hm p r).mpr hr
    rw [hasAccess_true_iff] at this
    rcases this with ⟨e, he, _⟩
    rw [he]
    rfl

theorem setAccessList_preserves_invMirror (toPeer : PubKey → Option PeerID)
    (s : ALState) (rid : RuntimeID) (nodes : List NodeDesc)
    (hm : InvMirror s) : InvMirror (setAccessList toPeer s rid nodes) := by
  intro p r
  rw [setAccessList_albr]
  by_cases hr : rid = r
  · subst hr
    rw [if_pos rfl, Option.getD_some]
    rw [hasAccess_setAccessList_rid]
    constructor
    · rintro (hh | hh)
      · exact hh
      · exact absurd ((hm p rid).mp hh.2) hh.1
    · exact Or.inl
  · rw [if_neg hr]
    have hne : r ≠ rid := fun hh => hr hh.symm
    rw [hasAccess_setAccessList_other toPeer s rid nodes p r hne]
    exact hm p r

theorem setAccessList_preserves_noEmpty (toPeer : PubKey → Option PeerID)
    (s : ALState) (rid : RuntimeID) (nodes : List NodeDesc)
    (hne : NoEmptyEntry s) : NoEmptyEntry (setAccessList toPeer s rid nodes) := by
  intro p e he
  rw [setAccessList_al_lookup] at he
  by_cases hd : p ∈ derivedPeers toPeer nodes
  · rw [if_pos hd] at he
    unfold addLookup at he
    injection he with he
    subst he
    by_cases hin : rid ∈ (mapLookup (clearedAL s rid) p).getD []
    · rw [if_pos hin]
      intro hnil
      rw [hnil] at hin
      cases hin
    · rw [if_neg hin]
      intro hnil
      rcases List.append_eq_nil.mp hnil with ⟨_, h2⟩
      cases h2
  · rw [if_neg hd, clearedAL_lookup] at he
    by_cases hold : p ∈ (mapLookup s.accessListByRuntime rid).getD []
    · rw [if_pos hold] at he
      unfold clearLookup clearedEntry at he
      cases hx : mapLookup s.accessList p with
      | none => rw [hx] at he; cases he
      | some e0 =>
        rw [hx] at he
        dsimp only [Option.bind] at he
        by_cases h2 : e0.filter (fun x => decide (x ≠ rid)) = []
        · rw [if_pos h2] at he; cases he
        · rw [if_neg h2] at he
          injection he with he
          subst he
          exact h2
    · rw [if_neg hold] at he
      exact hne p e he

theorem initALState_invMirror : InvMirror initALState := by
  intro p r
  unfold initALState hasAccess mapLookup
  simp

theorem initALState_noEmpty : NoEmptyEntry initALState := by
  intro p e he
  cases he

/-- Apply a sequence of setAccessList calls starting from the empty state. -/
def applyAccessCalls (toPeer : PubKey → Option PeerID)
    (calls : List (RuntimeID × List NodeDesc)) : ALState :=
  calls.foldl (fun st c => setAccessList toPeer st c.1 c.2) initALState

theorem foldl_preserves_mirror (toPeer : PubKey → Option PeerID)
    (calls : List (RuntimeID × List NodeDesc)) :
    ∀ (s : ALState), InvMirror s → NoEmptyEntry s →
      InvMirror (calls.foldl (fun st c => setAccessList toPeer st c.1 c.2) s) ∧
      NoEmptyEntry (calls.foldl (fun st c => setAccessList toPeer st c.1 c.2) s) := by
  induction calls with
  | nil => intro s hm hne; exact ⟨hm, hne⟩
  | cons c tl ih =>
    intro s hm hne
    rw [List.foldl_cons]
    exact ih (setAccessList toPeer s c.1 c.2)
      (setAccessList_preserves_invMirror toPeer s c.1 c.2 hm)
      (setAccessList_preserves_noEmpty toPeer s c.1 c.2 hne)

/-- C1: for a NoiseSession CallEnclave whose decoded frame names a method
other than the empty string, get_public_key or get_public_ephemeral_key,
a peer outside private_peers with no accessList entry is refused as not
authorized, while a peer in private_peers or with an accessList entry
passes the access check and the request proceeds toward the enclave. -/
theorem callEnclave_noise_access_check (w : ACState) (pid : PeerID)
    (decode : Bytes → Option Frame) (data : Bytes) (frame : Frame)
    (hdec : decode data = some frame)
    (hne : frame.untrustedPlaintext ≠ "")
    (hn1 : frame.untrustedPlaintext ≠ rpcMethodGetPublicKey)
    (hn2 : frame.untrustedPlaintext ≠ rpcMethodGetPublicEphemeralKey) :
    ((pid ∉ w.privatePeers ∧ mapLookup w.accessList pid = none) →
       callEnclave w (some pid) decode data Kind.noiseSession =
         CallOutcome.notAuthorized) ∧
    ((pid ∈ w.privatePeers ∨ (mapLookup w.accessList pid).isSome = true) →
       callEnclave w (some pid) decode data Kind.noiseSession =
         CallOutcome.dispatched) := by
  have hor : ¬ (frame.untrustedPlaintext = rpcMethodGetPublicKey ∨
      frame.untrustedPlaintext = rpcMethodGetPublicEphemeralKey) := by
    rintro (h | h)
    · exact hn1 h
    · exact hn2 h
  constructor
  · rintro ⟨hpriv, hlook⟩
    unfold callEnclave
    rw [hdec]
    dsimp only
    rw [if_neg hne, if_neg hor, if_neg hpriv, hlook]
    rfl
  · intro hcase
    unfold callEnclave
    rw [hdec]
    dsimp only
    rw [if_neg hne, if_neg hor]
    by_cases hpriv : pid ∈ w.privatePeers
    · rw [if_pos hpriv]
    · rw [if_neg hpriv]
      rcases hcase with hh | hh
      · exact absurd hh hpriv
      · rw [if_pos hh]

/-- A concrete worker gate state used by the closed witnesses below. -/
def sampleACState : ACState :=
  { privatePeers := [9], accessList := [(1, [5])] }

/-- A decoder used by the closed witnesses: every byte string decodes to a
frame naming the method secret_method. -/
def sampleDecode : Bytes → Option Frame :=
  fun _ => some { untrustedPlaintext := "secret_method" }

/-- Witness for the C1 theorem: peer 2 (not private, no entry) is refused,
peer 1 (with an entry) is dispatched. -/
theorem callEnclave_noise_access_check_witness :
    callEnclave sampleACState (some 2) sampleDecode [] Kind.noiseSession =
        CallOutcome.notAuthorized ∧
      callEnclave sampleACState (some 1) sampleDecode [] Kind.noiseSession =
        CallOutcome.dispatched := by
  constructor
  · exact (callEnclave_noise_access_check sampleACState 2 sampleDecode []
      { untrustedPlaintext := "secret_method" } rfl (by decide) (by decide)
      (by decide)).1 (by constructor <;> decide)
  · exact (callEnclave_noise_access_check sampleACState 1 sampleDecode []
      { untrustedPlaintext := "secret_method" } rfl (by decide) (by decide)
      (by decide)).2 (Or.inr (by decide))

/-- C10: a NoiseSession call with no resolvable peer id fails not-authorized
before the frame is decoded (for every decoder and payload), a call whose
data fails to decode as a Frame fails malformed-request, and in both cases
nothing is dispatched to the enclave. -/
theorem callEnclave_noise_early_errors (w : ACState)
    (decode : Bytes → Option Frame) (data : Bytes) :
    (callEnclave w none decode data Kind.noiseSession =
       CallOutcome.notAuthorized) ∧
    (∀ pid, decode data = none →
       callEnclave w (some pid) decode data Kind.noiseSession =
         CallOutcome.malformedRequest) ∧
    (callEnclave w none decode data Kind.noiseSession ≠
       CallOutcome.dispatched) ∧
    (∀ pid, decode data = none →
       callEnclave w (some pid) decode data Kind.noiseSession ≠
         CallOutcome.dispatched) := by
  refine ⟨rfl, ?_, ?_, ?_⟩
  · intro pid hdec
    unfold callEnclave
    rw [hdec]
  · intro h
    cases h
  · intro pid hdec
    unfold callEnclave
    rw [hdec]
    intro h
    cases h

/-- Witness for the C10 theorem at a decoder that rejects everything. -/
theorem callEnclave_noise_early_errors_witness :
    callEnclave sampleACState (some 1) (fun _ => none) [] Kind.noiseSession =
      CallOutcome.malformedRequest :=
  (callEnclave_noise_early_errors sampleACState (fun _ => none) []).2.1 1 rfl

/-- The init response returned by the counterexample environment below. -/
def respSample : SignedInitResponse :=
  { isSecure := false, checksum := [], policyChecksum := [7], sig := 0 }

/-- Environment whose enclave init succeeds but whose signature check
rejects every response under every key. -/
def envNoVerify : UpdateEnv :=
  { initCall := fun _ => Except.ok respSample,
    verify := fun _ _ => false,
    cborPolicy := fun _ => [] }

/-- A status record with no policy, as in the cold-start scenario. -/
def statusSample : Status :=
  { id := 0, isInitialized := false, isSecure := false, checksum := [],
    nodes := [], policy := none }

/-- A hosted-runtime status with no TEE capability. -/
def rtStatusNoTEE : RuntimeStatusRec :=
  { version := 1, capabilityTEE := none }

/-- C2 counterexample: when the hosted runtime reports no TEE capability,
updateStatus caches the init response although the response verifies under
no key at all, in particular not under the fixed insecure RAK, refuting
the claim that the absent-capability case is verified against it. -/
theorem updateStatus_no_tee_skips_verification :
    updateStatus envNoVerify statusSample rtStatusNoTEE true =
      Except.ok { enclaveStatus := some respSample, policy := none,
                  policyChecksum := some [7] } ∧
    envNoVerify.verify respSample InsecureRAK = false := by
  constructor
  · rfl
  · rfl

/-- C2 amended: updateStatus verifies the init-response signature against
the insecure RAK only for TEE hardware kind Invalid and against the
attested RAK for Intel SGX; when the TEE capability is absent the response
is cached without any signature verification, and for any other hardware
kind the call fails with an unknown-TEE error, so none of the cached
fields is produced. -/
theorem updateStatus_verification (env : UpdateEnv) (status : Status)
    (rt : RuntimeStatusRec) (mg : Bool) (resp : SignedInitResponse)
    (hinit : env.initCall
      { checksum := status.checksum,
        policy := status.policy.map env.cborPolicy,
        mayGenerate := mg } = Except.ok resp) :
    (rt.capabilityTEE = none →
       updateStatus env status rt mg =
         Except.ok { enclaveStatus := some resp, policy := status.policy,
                     policyChecksum := some resp.policyChecksum }) ∧
    (∀ tee, rt.capabilityTEE = some tee → tee.hardware = TEEHardwareInvalid →
       updateStatus env status rt mg =
         (if env.verify resp InsecureRAK then
            Except.ok { enclaveStatus := some resp, policy := status.policy,
                        policyChecksum := some resp.policyChecksum }
          else Except.error UpdateErr.badSignature)) ∧
    (∀ tee, rt.capabilityTEE = some tee → tee.hardware = TEEHardwareIntelSGX →
       updateStatus env status rt mg =
         (if env.verify resp tee.rak then
            Except.ok { enclaveStatus := some resp, policy := status.policy,
                        policyChecksum := some resp.policyChecksum }
          else Except.error UpdateErr.badSignature)) ∧
    (∀ tee, rt.capabilityTEE = some tee →
       tee.hardware ≠ TEEHardwareInvalid → tee.hardware ≠ TEEHardwareIntelSGX →
       updateStatus env status rt mg =
         Except.error (UpdateErr.unknownTEE tee.hardware)) := by
  have hpb : (match status.policy with
      | some p => some (env.cborPolicy p)
      | none => none) = status.policy.map env.cborPolicy := by
    cases status.policy <;> rfl
  have hbody : updateStatus env status rt mg =
      (match rt.capabilityTEE with
       | none =>
         Except.ok { enclaveStatus := some resp, policy := status.policy,
                     policyChecksum := some resp.policyChecksum }
       | some tee =>
         if tee.hardware = TEEHardwareInvalid then
           (if env.verify resp InsecureRAK then
              Except.ok { enclaveStatus := some resp, policy := status.policy,
                          policyChecksum := some resp.policyChecksum }
            else Except.error UpdateErr.badSignature)
         else if tee.hardware = TEEHardwareIntelSGX then
           (if env.verify resp tee.rak then
              Except.ok { enclaveStatus := some resp, policy := status.policy,
                          policyChecksum := some resp.policyChecksum }
            else Except.error UpdateErr.badSignature)
         else Except.error (UpdateErr.unknownTEE tee.hardware)) := by
    dsimp only [updateStatus]
    rw [hpb, hinit]
    cases rt.capabilityTEE with
    | none => rfl
    | some tee =>
      dsimp only
      by_cases h1 : tee.hardware = TEEHardwareInvalid
      · rw [if_pos h1, if_pos h1]
        by_cases h2 : env.verify resp InsecureRAK
        · rw [if_pos h2, if_pos h2]
        · rw [if_neg h2, if_neg h2]
      · rw [if_neg h1, if_neg h1]
        by_cases h2 : tee.hardware = TEEHardwareIntelSGX
        · rw [if_pos h2, if_pos h2]
          by_cases h3 : env.verify resp tee.rak
          · rw [if_pos h3, if_pos h3]
          · rw [if_neg h3, if_neg h3]
        · rw [if_neg h2, if_neg h2]
  refine ⟨?_, ?_, ?_, ?_⟩
  · intro hnone
    rw [hbody, hnone]
  · intro tee htee h1
    rw [hbody, htee]
    dsimp only
    rw [if_pos h1]
  · intro tee htee h2
    rw [hbody, htee]
    dsimp only
    rw [if_neg (by rw [h2]; decide), if_pos h2]
  · intro tee htee h1 h2
    rw [hbody, htee]
    dsimp only
    rw [if_neg h1, if_neg h2]

/-- Witness for the amended C2 theorem: a concrete SGX capability whose
verification succeeds leads to the cached response, applied with every
hypothesis discharged. -/
theorem updateStatus_verification_witness :
    updateStatus
        { initCall := fun _ => Except.ok respSample,
          verify := fun _ _ => true, cborPolicy := fun _ => [] }
        statusSample
        { version := 1,
          capabilityTEE := some { hardware := 1, rak := 42, rek := none } }
        true =
      Except.ok { enclaveStatus := some respSample, policy := none,
                  policyChecksum := some [7] } := by
  have h := (updateStatus_verification
      { initCall := fun _ => Except.ok respSample,
        verify := fun _ _ => true, cborPolicy := fun _ => [] }
      statusSample
      { version := 1,
        capabilityTEE := some { hardware := 1, rak := 42, rek := none } }
      true respSample rfl).2.2.1
      { hardware := 1, rak := 42, rek := none } rfl rfl
  rw [h]
  rfl

/-- C6: after setAccessList(r, N), accessListByRuntime[r] is exactly the
list of peer ids successfully derived from the nodes' P2P keys (failures
skipped); every (peer, r) pair for peers previously listed under r and not
re-derived is removed, with the peer's whole accessList entry removed
exactly when its runtime set becomes empty; and access for runtimes other
than r is unchanged for every peer. -/
theorem setAccessList_spec (toPeer : PubKey → Option PeerID) (s : ALState)
    (rid : RuntimeID) (nodes : List NodeDesc) :
    (mapLookup (setAccessList toPeer s rid nodes).accessListByRuntime rid =
       some (derivedPeers toPeer nodes)) ∧
    (∀ p, p ∈ (mapLookup s.accessListByRuntime rid).getD [] →
       p ∉ derivedPeers toPeer nodes →
       hasAccess (setAccessList toPeer s rid nodes).accessList p rid = false) ∧
    (∀ p, p ∈ (mapLookup s.accessListByRuntime rid).getD [] →
       p ∉ derivedPeers toPeer nodes →
       (mapLookup (setAccessList toPeer s rid nodes).accessList p = none ↔
         ((mapLookup s.accessList p).getD []).filter
           (fun x => decide (x ≠ rid)) = [])) ∧
    (∀ p r2, r2 ≠ rid →
       hasAccess (setAccessList toPeer s rid nodes).accessList p r2 =
         hasAccess s.accessList p r2) := by
  refine ⟨?_, ?_, ?_, ?_⟩
  · rw [setAccessList_albr, if_pos rfl]
  · intro p hold hd
    have hc := hasAccess_of_clearLookup rid s.accessList
      (setAccessList toPeer s rid nodes).accessList p
      (by rw [setAccessList_al_lookup, if_neg hd, clearedAL_lookup, if_pos hold]) rid
    cases hh : hasAccess (setAccessList toPeer s rid nodes).accessList p rid
    · rfl
    · exact absurd rfl (hc.mp hh).2
  · intro p hold hd
    rw [setAccessList_al_lookup, if_neg hd, clearedAL_lookup, if_pos hold]
    unfold clearLookup clearedEntry
    cases hx : mapLookup s.accessList p with
    | none =>
      dsimp only [Option.bind]
      simp
    | some e0 =>
      dsimp only [Option.bind]
      by_cases h2 : e0.filter (fun x => decide (x ≠ rid)) = []
      · rw [if_pos h2]
        simp only [Option.getD_some]
        exact iff_of_true trivial h2
      · rw [if_neg h2]
        simp only [Option.getD_some]
        constructor
        · intro hcc
          cases hcc
        · intro hcc
          exact absurd hcc h2
  · intro p r2 hr2
    exact hasAccess_setAccessList_other toPeer s rid nodes p r2 hr2

/-- A concrete access state used by the setAccessList witness: peer 1 is
listed for runtime 5, mirrored in both maps. -/
def sampleALStateOne : ALState :=
  { accessList := [(1, [5])], accessListByRuntime := [(5, [1])] }

/-- Witness for the C6 theorem: clearing runtime 5 with an empty node set
removes peer 1's access, with every hypothesis discharged concretely. -/
theorem setAccessList_spec_witness :
    mapLookup (setAccessList some sampleALStateOne 5 []).accessListByRuntime 5 =
        some [] ∧
      hasAccess (setAccessList some sampleALStateOne 5 []).accessList 1 5 = false := by
  constructor
  · exact (setAccessList_spec some sampleALStateOne 5 []).1
  · exact (setAccessList_spec some sampleALStateOne 5 []).2.1 1 (by decide) (by decide)

/-- C7: the mirror invariant (a peer has an accessList entry iff some
runtime lists it in accessListByRuntime) holds in the empty initial state
and after every sequence of setAccessList calls, for all arguments. -/
theorem accessListMirror_invariant :
    accessListMirror initALState ∧
    ∀ (toPeer : PubKey → Option PeerID)
      (calls : List (RuntimeID × List NodeDesc)),
      accessListMirror (applyAccessCalls toPeer calls) := by
  constructor
  · exact mirror_implies_inv initALState initALState_invMirror initALState_noEmpty
  · intro toPeer calls
    have h := foldl_preserves_mirror toPeer calls initALState
      initALState_invMirror initALState_noEmpty
    exact mirror_implies_inv _ h.1 h.2

/-- api.SignedEncryptedEphemeralSecret: the fields the worker loop reads
(Secret.ID and Secret.Epoch) plus an abstract payload. -/
structure SigSecret where
  id : RuntimeID
  epoch : EpochTime
  data : Nat
deriving DecidableEq, Repr

/-- The local variables of the Worker.worker select loop. -/
structure LoopState where
  currentStatus : Option Status
  currentRuntimeStatus : Option RuntimeStatusRec
  epoch : EpochTime
  secrets : List SigSecret
  loadSecretRetry : Nat
  genSecretHeight : Int
  genSecretInProgress : Bool
  genSecretRetry : Nat
  lastLoadedSecret : EpochTime
  numLoadedSecrets : Nat
  loadCalls : Nat
deriving DecidableEq, Repr

/-- The loop variables at entry of Worker.worker. -/
def initLoopState : LoopState :=
  { currentStatus := none, currentRuntimeStatus := none, epoch := 0,
    secrets := [], loadSecretRetry := 0, genSecretHeight := maxInt64,
    genSecretInProgress := false, genSecretRetry := 0, lastLoadedSecret := 0,
    numLoadedSecrets := 0, loadCalls := 0 }

/-- One arm of the select loop, with the results of the external calls made
inside the arm carried as event payloads: epochTransition carries the
randomBlockHeight result (0 on failure), hrtStarted carries the fetched
warm-up secrets (empty on failure), loadSecretSignal carries the per-secret
outcome of loadEphemeralSecret. -/
inductive LoopEvent
  | hrtStarted (rs : RuntimeStatusRec) (fetched : List SigSecret)
  | statusUpdate (st : Status)
  | initTick
  | runtimeReg
  | epochTransition (e : EpochTime) (height : Int)
  | blockArrival (height : Int)
  | secretPublished (sec : SigSecret)
  | genSecretSignal
  | genSecretDone (ok : Bool)
  | loadSecretSignal (loadOk : SigSecret → Bool)

/-- One iteration of the Worker.worker select loop restricted to the loop
variables.  Arms that only perform external effects (blockArrival sends
channel signals, initTick and runtimeReg re-run status or watcher logic)
leave the loop variables unchanged. -/
def step (runtimeID : RuntimeID) (s : LoopState) (ev : LoopEvent) : LoopState :=
  match ev with
  | LoopEvent.hrtStarted rs fetched =>
    { s with currentRuntimeStatus := some rs, secrets := fetched,
             loadSecretRetry := 0 }
  | LoopEvent.statusUpdate st =>
    if st.id = runtimeID then { s with currentStatus := some st } else s
  | LoopEvent.initTick => s
  | LoopEvent.runtimeReg => s
  | LoopEvent.epochTransition e height =>
    { s with epoch := e, genSecretHeight := height, genSecretRetry := 0 }
  | LoopEvent.blockArrival _ => s
  | LoopEvent.secretPublished sec =>
    if sec.id ≠ runtimeID then s
    else
      { s with
        genSecretHeight :=
          if sec.epoch = s.epoch + 1 then maxInt64 else s.genSecretHeight,
        secrets := s.secrets ++ [sec], loadSecretRetry := 0 }
  | LoopEvent.genSecretSignal =>
    if s.currentStatus = none ∨ s.currentRuntimeStatus = none then s
    else if s.genSecretInProgress = true ∨ s.genSecretHeight = maxInt64 then s
    else
      { s with
        genSecretRetry := s.genSecretRetry + 1,
        genSecretHeight :=
          if s.genSecretRetry + 1 > generateEphemeralSecretMaxRetries
          then maxInt64 else s.genSecretHeight,
        genSecretInProgress := true }
  | LoopEvent.genSecretDone ok =>
    { s with
      genSecretHeight :=
        if ok = true ∧ s.genSecretRetry > 0 then maxInt64 else s.genSecretHeight,
      genSecretInProgress := false }
  | LoopEvent.loadSecretSignal loadOk =>
    { s with
      secrets :=
        if s.loadSecretRetry + 1 > loadEphemeralSecretMaxRetries then []
        else s.secrets.filter (fun x => !(loadOk x)),
      loadSecretRetry := s.loadSecretRetry + 1,
      lastLoadedSecret :=
        match (s.secrets.filter loadOk).getLast? with
        | some sec => sec.epoch
        | none => s.lastLoadedSecret,
      numLoadedSecrets := s.numLoadedSecrets + (s.secrets.filter loadOk).length,
      loadCalls := s.loadCalls + s.secrets.length }

/-- Run the worker loop from its initial state over a list of events. -/
def runLoop (runtimeID : RuntimeID) (evs : List LoopEvent) : LoopState :=
  evs.foldl (step runtimeID) initLoopState

/-- Consensus GetEphemeralSecret failure modes: api.ErrNoSuchEphemeralSecret
or any other error. -/
inductive FetchErr
  | noSuch
  | other (m : String)
deriving DecidableEq, Repr

/-- Environment for fetchLastEphemeralSecrets: the beacon GetEpoch call and
the consensus GetEphemeralSecret query. -/
structure FetchEnv where
  getEpoch : Except String EpochTime
  getEphemeralSecret : RuntimeID → EpochTime → Except FetchErr SigSecret

/-- The fetch loop of fetchLastEphemeralSecrets: up to n queries walking the
epoch downwards while it stays positive; a found secret is collected, a
no-such-secret reply is skipped, any other error aborts the fetch. -/
def fetchDown (env : FetchEnv) (rid : RuntimeID) : Nat → EpochTime →
    Except String (List SigSecret)
  | 0, _ => Except.ok []
  | _ + 1, 0 => Except.ok []
  | n + 1, e + 1 =>
    match env.getEphemeralSecret rid (e + 1) with
    | Except.ok sec => (fetchDown env rid n e).map (fun rest => sec :: rest)
    | Except.error FetchErr.noSuch => fetchDown env rid n e
    | Except.error (FetchErr.other m) => Except.error m

/-- Worker.fetchLastEphemeralSecrets: read the current epoch, add one, and
fetch up to ephemeralSecretCacheSize secrets downwards from there. -/
def fetchLastEphemeralSecrets (env : FetchEnv) (rid : RuntimeID) :
    Except String (List SigSecret) :=
  match env.getEpoch with
  | Except.error e => Except.error e
  | Except.ok epoch => fetchDown env rid ephemeralSecretCacheSize (epoch + 1)

theorem fetchDown_length (env : FetchEnv) (rid : RuntimeID) :
    ∀ (n : Nat) (e : EpochTime) (l : List SigSecret),
      fetchDown env rid n e = Except.ok l → l.length ≤ n := by
  intro n
  induction n with
  | zero =>
    intro e l h
    cases e with
    | zero =>
      unfold fetchDown at h
      injection h with h
      subst h
      exact Nat.le_refl 0
    | succ e0 =>
      unfold fetchDown at h
      injection h with h
      subst h
      exact Nat.le_refl 0
  | succ n ih =>
    intro e l h
    cases e with
    | zero =>
      unfold fetchDown at h
      injection h with h
      subst h
      exact Nat.zero_le _
    | succ e0 =>
      unfold fetchDown at h
      cases hx : env.getEphemeralSecret rid (e0 + 1) with
      | ok sec =>
        rw [hx] at h
        cases hrec : fetchDown env rid n e0 with
        | ok rest =>
          rw [hrec] at h
          dsimp only [Except.map] at h
          injection h with h
          subst h
          exact Nat.succ_le_succ (ih e0 rest hrec)
        | error msg =>
          rw [hrec] at h
          dsimp only [Except.map] at h
          cases h
      | error fe =>
        cases fe with
        | noSuch =>
          rw [hx] at h
          exact Nat.le_succ_of_le (ih e0 l h)
        | other m =>
          rw [hx] at h
          cases h

theorem fetch_length_le_cache (env : FetchEnv) (rid : RuntimeID)
    (l : List SigSecret) (h : fetchLastEphemeralSecrets env rid = Except.ok l) :
    l.length ≤ ephemeralSecretCacheSize := by
  unfold fetchLastEphemeralSecrets at h
  cases hx : env.getEpoch with
  | error e => rw [hx] at h; cases h
  | ok epoch =>
    rw [hx] at h
    exact fetchDown_length env rid ephemeralSecretCacheSize (epoch + 1) l h

/-- C3: on a successful generation completion the loop disarms generation
(height becomes the MaxInt64 sentinel) exactly when gen_retry_count is
positive when the completion is observed, and a disarmed height persists
across every loop event except an epoch transition. -/
theorem genSecretDone_disarm (rid : RuntimeID) (s : LoopState) :
    (s.genSecretRetry > 0 →
       (step rid s (LoopEvent.genSecretDone true)).genSecretHeight = maxInt64) ∧
    (s.genSecretRetry = 0 →
       (step rid s (LoopEvent.genSecretDone true)).genSecretHeight =
         s.genSecretHeight) ∧
    (∀ ev : LoopEvent, s.genSecretHeight = maxInt64 →
       (∀ e h, ev ≠ LoopEvent.epochTransition e h) →
       (step rid s ev).genSecretHeight = maxInt64) := by
  refine ⟨?_, ?_, ?_⟩
  · intro h
    unfold step
    dsimp only
    rw [if_pos ⟨rfl, h⟩]
  · intro h
    unfold step
    dsimp only
    rw [if_neg (fun hc => by rw [h] at hc; exact absurd hc.2 (by decide))]
  · intro ev hmax hne
    cases ev with
    | hrtStarted rs fetched => exact hmax
    | statusUpdate st =>
      unfold step
      dsimp only
      by_cases h : st.id = rid
      · rw [if_pos h]
        exact hmax
      · rw [if_neg h]
        exact hmax
    | initTick => exact hmax
    | runtimeReg => exact hmax
    | epochTransition e h2 => exact absurd rfl (hne e h2)
    | blockArrival h2 => exact hmax
    | secretPublished sec =>
      unfold step
      dsimp only
      by_cases h : sec.id ≠ rid
      · rw [if_pos h]
        exact hmax
      · rw [if_neg h]
        dsimp only
        by_cases h2 : sec.epoch = s.epoch + 1
        · rw [if_pos h2]
        · rw [if_neg h2]
          exact hmax
    | genSecretSignal =>
      unfold step
      dsimp only
      by_cases h1 : s.currentStatus = none ∨ s.currentRuntimeStatus = none
      · rw [if_pos h1]
        exact hmax
      · rw [if_neg h1, if_pos (Or.inr hmax)]
        exact hmax
    | genSecretDone ok =>
      unfold step
      dsimp only
      by_cases h1 : ok = true ∧ s.genSecretRetry > 0
      · rw [if_pos h1]
      · rw [if_neg h1]
        exact hmax
    | loadSecretSignal f => exact hmax

/-- A loop state in which a generation attempt is in flight after one
signal, used by the closed witnesses below. -/
def sampleGenState : LoopState :=
  { initLoopState with
    currentStatus := some statusSample,
    currentRuntimeStatus := some rtStatusNoTEE,
    genSecretHeight := 42, genSecretRetry := 1, genSecretInProgress := true }

/-- Witness for the C3 theorem: a successful completion observed with
gen_retry_count = 1 disarms the height. -/
theorem genSecretDone_disarm_witness :
    (step 0 sampleGenState (LoopEvent.genSecretDone true)).genSecretHeight =
      maxInt64 :=
  (genSecretDone_disarm 0 sampleGenState).1 (by decide)

/-- Twenty-one published secrets for the worker runtime, arriving before
any load pass runs. -/
def manySecretEvents : List LoopEvent :=
  (List.range 21).map
    (fun i => LoopEvent.secretPublished { id := 0, epoch := i, data := 0 })

/-- C5 counterexample: a reachable worker-loop state holds 21 pending
secrets, exceeding the claimed bound of 20 (the entCh arm appends without
any size check). -/
theorem pending_secrets_exceed_cap :
    (runLoop 0 manySecretEvents).secrets.length = 21 ∧
    ¬ (runLoop 0 manySecretEvents).secrets.length ≤ ephemeralSecretCacheSize := by
  constructor
  · decide
  · decide

/-- C5 amended: observed secrets are appended to pending_secrets without a
size check, so the queue is not bounded by 20; only the startup warm-up
fetch is capped at 20 entries; and a load pass that raises
load_retry_count above the cap of 5 clears the queue to empty. -/
theorem pending_secrets_behaviour (rid : RuntimeID) (s : LoopState)
    (f : SigSecret → Bool) :
    ((step rid s (LoopEvent.loadSecretSignal f)).loadSecretRetry =
       s.loadSecretRetry + 1) ∧
    (s.loadSecretRetry + 1 > loadEphemeralSecretMaxRetries →
       (step rid s (LoopEvent.loadSecretSignal f)).secrets = []) ∧
    (∀ sec : SigSecret, sec.id = rid →
       (step rid s (LoopEvent.secretPublished sec)).secrets =
         s.secrets ++ [sec]) ∧
    (∀ (env : FetchEnv) (rid2 : RuntimeID) (l : List SigSecret),
       fetchLastEphemeralSecrets env rid2 = Except.ok l →
       l.length ≤ ephemeralSecretCacheSize) := by
  refine ⟨rfl, ?_, ?_, ?_⟩
  · intro h
    unfold step
    dsimp only
    rw [if_pos h]
  · intro sec hsec
    unfold step
    dsimp only
    rw [if_neg (fun hc => hc hsec)]
  · exact fetch_length_le_cache

/-- Witness for the amended C5 theorem: a sixth load pass over a one-entry
queue clears it. -/
theorem pending_secrets_behaviour_witness :
    (step 0
        { initLoopState with
          secrets := [{ id := 0, epoch := 3, data := 0 }], loadSecretRetry := 5 }
        (LoopEvent.loadSecretSignal (fun _ => false))).secrets = [] :=
  (pending_secrets_behaviour 0
    { initLoopState with
      secrets := [{ id := 0, epoch := 3, data := 0 }], loadSecretRetry := 5 }
    (fun _ => false)).2.1 (by decide)

/-- An on-chain secret for a given runtime and epoch. -/
def mkSecret (rid : RuntimeID) (e : EpochTime) : SigSecret :=
  { id := rid, epoch := e, data := 0 }

/-- A consensus view holding exactly the secrets of epochs lo..hi, with the
beacon reporting cur as the current epoch. -/
def intervalFetchEnv (lo hi cur : EpochTime) : FetchEnv :=
  { getEpoch := Except.ok cur,
    getEphemeralSecret := fun rid e =>
      if lo ≤ e ∧ e ≤ hi then Except.ok (mkSecret rid e)
      else Except.error FetchErr.noSuch }

theorem intervalFetchEnv_get (lo hi cur : EpochTime) (rid : RuntimeID)
    (e : EpochTime) :
    (intervalFetchEnv lo hi cur).getEphemeralSecret rid e =
      (if lo ≤ e ∧ e ≤ hi then Except.ok (mkSecret rid e)
       else Except.error FetchErr.noSuch) := rfl

theorem fetchDown_interval (lo hi cur : Nat) (rid : RuntimeID) :
    ∀ (m : Nat) (e : Nat), m ≤ e → lo + m ≤ e + 1 → e ≤ hi →
      fetchDown (intervalFetchEnv lo hi cur) rid m e =
        Except.ok ((List.range m).map (fun k => mkSecret rid (e - k))) := by
  intro m
  induction m with
  | zero =>
    intro e _ _ _
    rfl
  | succ n ih =>
    intro e hm hlo hhi
    cases e with
    | zero => exact (Nat.not_succ_le_zero n hm).elim
    | succ e0 =>
      have hcond : lo ≤ e0 + 1 ∧ e0 + 1 ≤ hi := ⟨by omega, hhi⟩
      have hlist : (List.range (n + 1)).map (fun k => mkSecret rid (e0 + 1 - k)) =
          mkSecret rid (e0 + 1) ::
            (List.range n).map (fun k => mkSecret rid (e0 - k)) := by
        rw [List.range_succ_eq_map, List.map_cons, List.map_map]
        have hfun : ((fun k => mkSecret rid (e0 + 1 - k)) ∘ Nat.succ) =
            (fun k => mkSecret rid (e0 - k)) := by
          funext k
          show mkSecret rid (e0 + 1 - (k + 1)) = mkSecret rid (e0 - k)
          rw [Nat.succ_sub_succ]
        rw [hfun, Nat.sub_zero]
      unfold fetchDown
      rw [intervalFetchEnv_get, if_pos hcond]
      dsimp only
      rw [ih e0 (by omega) (by omega) (by omega)]
      dsimp only [Except.map]
      rw [hlist]

/-- The 19 secrets the warm-up fetch finds when consensus holds exactly
epochs E-19..E: the fetch window is E+1 down to E-18. -/
def warmupSecrets (E : EpochTime) : List SigSecret :=
  (List.range 19).map (fun k => mkSecret 0 (E - k))

/-- The loop state after the warm-up fetch is pushed by the hrtStarted arm
and one load pass in which every load succeeds. -/
def warmupRun (E : EpochTime) : LoopState :=
  step 0
    (step 0 initLoopState (LoopEvent.hrtStarted rtStatusNoTEE (warmupSecrets E)))
    (LoopEvent.loadSecretSignal (fun _ => true))

/-- C4 counterexample: at epoch 100 with exactly the secrets of epochs
81..100 on chain, the warm-up fetch returns 19 secrets (not 20) and the
load pass makes 19 load calls leaving last_loaded_epoch = 82 (not 100),
because the fetch window is 101 down to 82 and the loads run in descending
epoch order. -/
theorem fetch_warmup_counterexample :
    fetchLastEphemeralSecrets (intervalFetchEnv 81 100 100) 0 =
      Except.ok (warmupSecrets 100) ∧
    (warmupSecrets 100).length = 19 ∧
    (warmupRun 100).loadCalls = 19 ∧
    (warmupRun 100).lastLoadedSecret = 82 ∧
    ¬ (warmupRun 100).loadCalls = 20 ∧
    ¬ (warmupRun 100).lastLoadedSecret = 100 := by
  refine ⟨by rfl, by decide, by decide, by decide, by decide, by decide⟩

/-- C4 amended: if the enclave restarts while the consensus epoch is E
(with 19 ≤ E) and consensus holds exactly the secrets of epochs E-19..E,
the warm-up fetch queries epochs E+1 down to E-18 and returns the 19
present secrets in descending epoch order, and the load pass makes 19
load_ephemeral_secret calls (each succeeding) leaving
last_loaded_epoch = E-18 and an empty queue. -/
theorem fetch_warmup_amended (E : Nat) (hE : 19 ≤ E) :
    fetchLastEphemeralSecrets (intervalFetchEnv (E - 19) E E) 0 =
      Except.ok (warmupSecrets E) ∧
    (warmupSecrets E).length = 19 ∧
    (warmupRun E).loadCalls = 19 ∧
    (warmupRun E).numLoadedSecrets = 19 ∧
    (warmupRun E).lastLoadedSecret = E - 18 ∧
    (warmupRun E).secrets = [] := by
  refine ⟨?_, ?_, ?_, ?_, ?_, ?_⟩
  · have h20 : fetchLastEphemeralSecrets (intervalFetchEnv (E - 19) E E) 0 =
        (match (intervalFetchEnv (E - 19) E E).getEphemeralSecret 0 (E + 1) with
         | Except.ok sec =>
           (fetchDown (intervalFetchEnv (E - 19) E E) 0 19 E).map
             (fun rest => sec :: rest)
         | Except.error FetchErr.noSuch =>
           fetchDown (intervalFetchEnv (E - 19) E E) 0 19 E
         | Except.error (FetchErr.other m) => Except.error m) := rfl
    rw [h20, intervalFetchEnv_get,
      if_neg (fun hc => absurd hc.2 (Nat.not_succ_le_self E))]
    dsimp only
    rw [fetchDown_interval (E - 19) E E 0 19 E hE (by omega) (Nat.le_refl E)]
    rfl
  · unfold warmupSecrets
    rw [List.length_map, List.length_range]
  · rfl
  · rfl
  · rfl
  · rfl

/-- Witness for the amended C4 theorem at E = 100. -/
theorem fetch_warmup_amended_witness :
    (warmupRun 100).lastLoadedSecret = 82 :=
  (fetch_warmup_amended 100 (by decide)).2.2.2.2.1

/-- A runtime entry of a registered node descriptor: runtime id and the
optional REK from its TEE capability. -/
structure NodeRuntime where
  id : RuntimeID
  teeREK : Option Nat
deriving DecidableEq, Repr

/-- The part of a registry node descriptor read by generateEphemeralSecret. -/
structure NodeRegDesc where
  runtimes : List NodeRuntime
deriving DecidableEq, Repr

/-- The fixed well-known insecure REK api.InsecureREK, an abstract value. -/
def InsecureREK : Nat := 1

/-- Environment for generateEphemeralSecret: consensus queries, the node
signer, the enclave generate call, registry reads, signature verification
of the signed secret, and transaction submission. -/
structure GenEnv where
  getEphemeralSecret : RuntimeID → EpochTime → Except FetchErr SigSecret
  nodeSignerPublic : PubKey
  enclaveGenerate : EpochTime → Except String SigSecret
  getRuntimeTEEHardware : RuntimeID → Except String Nat
  getNode : PubKey → Except FetchErr NodeRegDesc
  verifySecret : SigSecret → EpochTime → List Nat → PubKey → Bool
  submitTx : SigSecret → Except String Unit

/-- Set-style insert into the REK collection (Go map keyed by the REK). -/
def insertREK (reks : List Nat) (r : Nat) : List Nat :=
  if r ∈ reks then reks else reks ++ [r]

/-- The committee REK gathering loop of generateEphemeralSecret: for each
committee node fetch its descriptor (skipping missing nodes, aborting on
other errors), find its entry for the key-manager runtime, and take the
insecure REK for non-TEE hardware or the attested REK under SGX (skipping
nodes without one). -/
def collectREKs (env : GenEnv) (hw : Nat) (kmID : RuntimeID) :
    List PubKey → List Nat → Except String (List Nat)
  | [], acc => Except.ok acc
  | nid :: rest, acc =>
    match env.getNode nid with
    | Except.error FetchErr.noSuch => collectREKs env hw kmID rest acc
    | Except.error (FetchErr.other m) => Except.error m
    | Except.ok n =>
      match n.runtimes.find? (fun rt => decide (rt.id = kmID)) with
      | none => collectREKs env hw kmID rest acc
      | some nRt =>
        if hw = TEEHardwareInvalid then
          collectREKs env hw kmID rest (insertREK acc InsecureREK)
        else if hw = TEEHardwareIntelSGX then
          (match nRt.teeREK with
           | none => collectREKs env hw kmID rest acc
           | some rek => collectREKs env hw kmID rest (insertREK acc rek))
        else collectREKs env hw kmID rest acc

/-- Result of one generateEphemeralSecret invocation, instrumented with
whether the enclave generate call and the publish transaction happened. -/
structure GenResult where
  result : Except String Unit
  generateCalled : Bool
  publishCalled : Bool
deriving Repr

/-- Worker.generateEphemeralSecret: skip when the secret for the epoch is
already on chain, require committee membership, call the enclave, resolve
the RAK from the key-manager runtime's TEE hardware, gather committee
REKs, verify the signed secret and submit the publish transaction. -/
def generateEphemeralSecret (env : GenEnv) (runtimeID : RuntimeID)
    (epoch : EpochTime) (kmStatus : Status) (rtStatus : RuntimeStatusRec) :
    GenResult :=
  match env.getEphemeralSecret runtimeID epoch with
  | Except.ok _ =>
    { result := Except.ok (), generateCalled := false, publishCalled := false }
  | Except.error (FetchErr.other m) =>
    { result := Except.error m, generateCalled := false, publishCalled := false }
  | Except.error FetchErr.noSuch =>
    if env.nodeSignerPublic ∉ kmStatus.nodes then
      { result := Except.error "node not in the key manager committee",
        generateCalled := false, publishCalled := false }
    else
      match env.enclaveGenerate epoch with
      | Except.error e =>
        { result := Except.error e, generateCalled := true, publishCalled := false }
      | Except.ok signedSecret =>
        match env.getRuntimeTEEHardware kmStatus.id with
        | Except.error e =>
          { result := Except.error e, generateCalled := true,
            publishCalled := false }
        | Except.ok hw =>
          match (if hw = TEEHardwareInvalid then Except.ok InsecureRAK
                 else if hw = TEEHardwareIntelSGX then
                   (match rtStatus.capabilityTEE with
                    | none => Except.error "node does not have TEE capability"
                    | some tee => Except.ok tee.rak)
                 else Except.error "TEE hardware mismatch" :
                 Except String PubKey) with
          | Except.error e =>
            { result := Except.error e, generateCalled := true,
              publishCalled := false }
          | Except.ok rak =>
            match collectREKs env hw kmStatus.id kmStatus.nodes [] with
            | Except.error e =>
              { result := Except.error e, generateCalled := true,
                publishCalled := false }
            | Except.ok reks =>
              if env.verifySecret signedSecret epoch reks rak then
                (match env.submitTx signedSecret with
                 | Except.error e =>
                   { result := Except.error e, generateCalled := true,
                     publishCalled := true }
                 | Except.ok () =>
                   { result := Except.ok (), generateCalled := true,
                     publishCalled := true })
              else
                { result := Except.error "failed to validate signature",
                  generateCalled := true, publishCalled := false }

/-- C8: if the consensus query finds an already-published secret for the
target epoch, generateEphemeralSecret returns success without calling the
enclave generate method and without submitting a publish transaction; and
in the worker loop a launched generation attempt that completes
successfully disarms gen_secret_height to the MaxInt64 sentinel. -/
theorem generateEphemeralSecret_already_published (env : GenEnv)
    (rid : RuntimeID) (epoch : EpochTime) (kmStatus : Status)
    (rtStatus : RuntimeStatusRec) (sec : SigSecret)
    (hpub : env.getEphemeralSecret rid epoch = Except.ok sec) :
    generateEphemeralSecret env rid epoch kmStatus rtStatus =
      { result := Except.ok (), generateCalled := false,
        publishCalled := false } ∧
    (∀ s : LoopState, s.currentStatus ≠ none → s.currentRuntimeStatus ≠ none →
       s.genSecretInProgress = false → s.genSecretHeight ≠ maxInt64 →
       (step rid (step rid s LoopEvent.genSecretSignal)
           (LoopEvent.genSecretDone true)).genSecretHeight = maxInt64) := by
  constructor
  · unfold generateEphemeralSecret
    rw [hpub]
  · intro s h1 h2 h3 h4
    unfold step
    dsimp only
    rw [if_neg (fun hc => Or.elim hc h1 h2),
      if_neg (fun hc =>
        Or.elim hc (fun hcc => Bool.false_ne_true (h3.symm.trans hcc)) h4)]
    dsimp only
    rw [if_pos ⟨rfl, Nat.succ_pos s.genSecretRetry⟩]

/-- An environment in which the target epoch's secret is already published. -/
def genEnvPublished : GenEnv :=
  { getEphemeralSecret := fun _ _ => Except.ok (mkSecret 0 101),
    nodeSignerPublic := 5,
    enclaveGenerate := fun _ => Except.error "unused",
    getRuntimeTEEHardware := fun _ => Except.ok 0,
    getNode := fun _ => Except.error FetchErr.noSuch,
    verifySecret := fun _ _ _ _ => false,
    submitTx := fun _ => Except.ok () }

/-- A loop state with an armed generation height and no attempt in flight. -/
def sampleIdleState : LoopState :=
  { initLoopState with
    currentStatus := some statusSample,
    currentRuntimeStatus := some rtStatusNoTEE,
    genSecretHeight := 42 }

/-- Witness for the C8 theorem applied at a concrete environment and state. -/
theorem generateEphemeralSecret_already_published_witness :
    generateEphemeralSecret genEnvPublished 0 101 statusSample rtStatusNoTEE =
      { result := Except.ok (), generateCalled := false,
        publishCalled := false } ∧
    (step 0 (step 0 sampleIdleState LoopEvent.genSecretSignal)
        (LoopEvent.genSecretDone true)).genSecretHeight = maxInt64 := by
  have h := generateEphemeralSecret_already_published genEnvPublished 0 101
    statusSample rtStatusNoTEE (mkSecret 0 101) rfl
  exact ⟨h.1, h.2 sampleIdleState (by decide) (by decide) (by decide) (by decide)⟩

/-- The fields of registry.Runtime read by startClientRuntimeWatcher. -/
structure RuntimeDesc where
  id : RuntimeID
  kind : Nat
  keyManager : Option RuntimeID
deriving DecidableEq, Repr

/-- Watcher bookkeeping: the set of runtimes with a watcher (keys of
clientRuntimes) and the computeRuntimeCount metric. -/
structure WatcherState where
  clientRuntimes : List RuntimeID
  computeRuntimeCount : Nat
deriving DecidableEq, Repr

/-- Outcome of a startClientRuntimeWatcher call. -/
inductive StartOutcome
  | skipped
  | failed (e : String)
  | started
deriving DecidableEq, Repr

/-- The policy check of startClientRuntimeWatcher: insecure status without
a policy allows every runtime (test mode), otherwise some enclave policy
must list the runtime under MayQuery. -/
def watcherPolicyCheck (st : Status) (rt : RuntimeDesc) : Bool :=
  if st.isSecure = false ∧ st.policy = none then true
  else
    match st.policy with
    | some sp => sp.policy.enclaves.any (fun enc => decide (rt.id ∈ enc.mayQuery))
    | none => false

/-- Worker.startClientRuntimeWatcher: skip when the status is missing or
uninitialized, when the runtime is not a compute runtime using this key
manager, when a watcher already exists, or when the policy rejects the
runtime; otherwise create the node watcher (newWatcher is the result of
that external call), register it and bump computeRuntimeCount. -/
def startClientRuntimeWatcher (newWatcher : Except String Unit)
    (selfID : RuntimeID) (w : WatcherState) (rt : RuntimeDesc)
    (status : Option Status) : WatcherState × StartOutcome :=
  match status with
  | none => (w, StartOutcome.skipped)
  | some st =>
    if st.isInitialized = false then (w, StartOutcome.skipped)
    else if rt.kind ≠ KindCompute ∨ rt.keyManager ≠ some selfID then
      (w, StartOutcome.skipped)
    else if rt.id ∈ w.clientRuntimes then (w, StartOutcome.skipped)
    else if watcherPolicyCheck st rt = false then (w, StartOutcome.skipped)
    else
      match newWatcher with
      | Except.error e => (w, StartOutcome.failed e)
      | Except.ok () =>
        ({ clientRuntimes := w.clientRuntimes ++ [rt.id],
           computeRuntimeCount := w.computeRuntimeCount + 1 },
         StartOutcome.started)

/-- The claim's reading of the policy condition: test mode (insecure, no
policy) or the runtime listed under some enclave's may_query. -/
def mayQueryAllowed (st : Status) (rt : RuntimeDesc) : Prop :=
  (st.isSecure = false ∧ st.policy = none) ∨
  (∃ sp, st.policy = some sp ∧ ∃ enc ∈ sp.policy.enclaves, rt.id ∈ enc.mayQuery)

theorem watcherPolicyCheck_iff (st : Status) (rt : RuntimeDesc) :
    watcherPolicyCheck st rt = true ↔ mayQueryAllowed st rt := by
  unfold watcherPolicyCheck mayQueryAllowed
  by_cases h1 : st.isSecure = false ∧ st.policy = none
  · rw [if_pos h1]
    exact iff_of_true rfl (Or.inl h1)
  · rw [if_neg h1]
    cases hp : st.policy with
    | none =>
      dsimp only
      constructor
      · intro hh
        cases hh
      · rintro (⟨hs, hn⟩ | ⟨sp, hsp, _⟩)
        · exact absurd ⟨hs, hp⟩ h1
        · cases hsp
    | some sp =>
      dsimp only
      rw [List.any_eq_true]
      constructor
      · rintro ⟨enc, henc, hdec⟩
        exact Or.inr ⟨sp, rfl, enc, henc, of_decide_eq_true hdec⟩
      · rintro (⟨hs, hn⟩ | ⟨sp2, hsp2, enc, henc, hmem⟩)
        · cases hn
        · injection hsp2 with hsp2
          subst hsp2
          exact ⟨enc, henc, decide_eq_true hmem⟩

/-- C9: with the external node-watcher creation succeeding, a watcher is
started iff the status is present and initialized, the runtime is a
compute runtime naming this key manager, no watcher exists yet, and the
policy allows it (or insecure test mode); otherwise the watcher map and
computeRuntimeCount are unchanged, and on success the runtime is recorded
and the counter incremented by one. -/
theorem startClientRuntimeWatcher_spec (selfID : RuntimeID) (w : WatcherState)
    (rt : RuntimeDesc) (status : Option Status) :
    ((startClientRuntimeWatcher (Except.ok ()) selfID w rt status).2 =
        StartOutcome.started ↔
      (∃ st, status = some st ∧ st.isInitialized = true ∧
        rt.kind = KindCompute ∧ rt.keyManager = some selfID ∧
        rt.id ∉ w.clientRuntimes ∧ mayQueryAllowed st rt)) ∧
    ((startClientRuntimeWatcher (Except.ok ()) selfID w rt status).2 ≠
        StartOutcome.started →
      (startClientRuntimeWatcher (Except.ok ()) selfID w rt status).1 = w) ∧
    ((startClientRuntimeWatcher (Except.ok ()) selfID w rt status).2 =
        StartOutcome.started →
      (startClientRuntimeWatcher (Except.ok ()) selfID w rt status).1 =
        { clientRuntimes := w.clientRuntimes ++ [rt.id],
          computeRuntimeCount := w.computeRuntimeCount + 1 }) := by
  cases status with
  | none =>
    refine ⟨?_, fun _ => rfl, ?_⟩
    · constructor
      · intro h
        exact StartOutcome.noConfusion h
      · rintro ⟨st, hst, _⟩
        cases hst
    · intro h
      exact StartOutcome.noConfusion h
  | some st =>
    unfold startClientRuntimeWatcher
    dsimp only
    by_cases hinit : st.isInitialized = false
    · rw [if_pos hinit]
      refine ⟨?_, fun _ => rfl, ?_⟩
      · constructor
        · intro h
          exact StartOutcome.noConfusion h
        · rintro ⟨st2, hst2, hini, _⟩
          injection hst2 with hst2
          subst hst2
          rw [hinit] at hini
          cases hini
      · intro h
        exact StartOutcome.noConfusion h
    · rw [if_neg hinit]
      have hinitT : st.isInitialized = true := by
        cases hb : st.isInitialized
        · exact absurd hb hinit
        · rfl
      by_cases hkind : rt.kind ≠ KindCompute ∨ rt.keyManager ≠ some selfID
      · rw [if_pos hkind]
        refine ⟨?_, fun _ => rfl, ?_⟩
        · constructor
          · intro h
            exact StartOutcome.noConfusion h
          · rintro ⟨st2, hst2, _, hk, hkm, _⟩
            rcases hkind with hh | hh
            · exact (hh hk).elim
            · exact (hh hkm).elim
        · intro h
          exact StartOutcome.noConfusion h
      · rw [if_neg hkind]
        push_neg at hkind
        by_cases hex : rt.id ∈ w.clientRuntimes
        · rw [if_pos hex]
          refine ⟨?_, fun _ => rfl, ?_⟩
          · constructor
            · intro h
              exact StartOutcome.noConfusion h
            · rintro ⟨st2, hst2, _, _, _, hnx, _⟩
              exact (hnx hex).elim
          · intro h
            exact StartOutcome.noConfusion h
        · rw [if_neg hex]
          by_cases hpol : watcherPolicyCheck st rt = false
          · rw [if_pos hpol]
            refine ⟨?_, fun _ => rfl, ?_⟩
            · constructor
              · intro h
                exact StartOutcome.noConfusion h
              · rintro ⟨st2, hst2, _, _, _, _, hmq⟩
                injection hst2 with hst2
                subst hst2
                have hmq2 := (watcherPolicyCheck_iff st rt).mpr hmq
                rw [hpol] at hmq2
                cases hmq2
            · intro h
              exact StartOutcome.noConfusion h
          · rw [if_neg hpol]
            have hpolT : watcherPolicyCheck st rt = true := by
              cases hb : watcherPolicyCheck st rt
              · exact absurd hb hpol
              · rfl
            dsimp only
            refine ⟨?_, ?_, fun _ => rfl⟩
            · constructor
              · intro _
                exact ⟨st, rfl, hinitT, hkind.1, hkind.2, hex,
                  (watcherPolicyCheck_iff st rt).mp hpolT⟩
              · intro _
                rfl
            · intro h
              exact absurd rfl h

/-- A policy that permits only runtime 10 to query. -/
def policyOnlyTen : SignedPolicySGX :=
  { policy := { enclaves := [{ mayQuery := [10] }] }, sigs := 0 }

/-- An initialized secure status carrying that policy. -/
def statusWithPolicyTen : Status :=
  { id := 0, isInitialized := true, isSecure := true, checksum := [],
    nodes := [], policy := some policyOnlyTen }

/-- A compute runtime with id 11 using key manager 0. -/
def rtEleven : RuntimeDesc := { id := 11, kind := 1, keyManager := some 0 }

/-- A watcher state with no watchers. -/
def emptyWatcherState : WatcherState :=
  { clientRuntimes := [], computeRuntimeCount := 0 }

/-- Witness for the C9 theorem: runtime 11 is not in the policy, so no
watcher is started and the counter is unchanged. -/
theorem startClientRuntimeWatcher_spec_witness :
    (startClientRuntimeWatcher (Except.ok ()) 0 emptyWatcherState rtEleven
        (some statusWithPolicyTen)).1 = emptyWatcherState :=
  (startClientRuntimeWatcher_spec 0 emptyWatcherState rtEleven
      (some statusWithPolicyTen)).2.1 (by decide)
